import Mathlib

/-!
Verification of the radiation-forces kernel of reboundx
(`src/radiation_forces.c`, function `rebx_radiation_forces`).

The C code is shallowly embedded over the real numbers: particles are
records of position, velocity, mass and accumulated acceleration, the
per-particle loop becomes a fold over `List.range`, and the external
keyed parameter store is modelled as an optional `beta` field on each
particle (the spec describes the lookup `rebx_search_param(&p, RAD_BETA)`
as returning an optional scalar).
-/

namespace RadiationForces

/-- A 3-vector of real scalars, used for acceleration increments. -/
structure Vec3 where
  x : ℝ
  y : ℝ
  z : ℝ

instance : Zero Vec3 := ⟨⟨0, 0, 0⟩⟩

instance : Add Vec3 := ⟨fun a b => ⟨a.x + b.x, a.y + b.y, a.z + b.z⟩⟩

theorem Vec3.zero_def : (0 : Vec3) = ⟨0, 0, 0⟩ := rfl

theorem Vec3.add_def (a b : Vec3) : a + b = ⟨a.x + b.x, a.y + b.y, a.z + b.z⟩ := rfl

/-- Sum of a list of 3-vectors. -/
def sumV (l : List Vec3) : Vec3 := l.foldr (· + ·) 0

/-- Modelled from the spec: `struct reb_particle` of the external rebound
library, with the fields this kernel reads and writes (position, velocity,
mass, accumulated acceleration), plus the sparse per-particle beta
coefficient held in the external keyed parameter store, modelled as an
optional field (`rebx_search_param(&p, RAD_BETA)` returning NULL becomes
`beta = none`). -/
structure Particle where
  x : ℝ
  y : ℝ
  z : ℝ
  vx : ℝ
  vy : ℝ
  vz : ℝ
  m : ℝ
  ax : ℝ
  ay : ℝ
  az : ℝ
  beta : Option ℝ

instance : Inhabited Particle := ⟨⟨0, 0, 0, 0, 0, 0, 0, 0, 0, 0, none⟩⟩

/-- Modelled from the spec: the part of `struct reb_simulation` this kernel
reads: gravitational constant `G`, the particle array, and the count
`N_var` of variational particles (the total count `N` is the length of the
particle list). -/
structure Simulation where
  G : ℝ
  N_var : ℕ
  particles : List Particle

/-- Modelled from the spec: `struct rebx_params_radiation_forces`, the
parameter block carrying the speed of light `c` and the index
`source_index` of the radiation source. -/
structure RadiationParams where
  c : ℝ
  source_index : ℕ

/-- The factor `(1.-rdot/c)` of `radiation_forces.c` lines 61-63. -/
noncomputable def corrFactor (c rdot : ℝ) : ℝ := 1 - rdot / c

/-- `dr` of `radiation_forces.c` line 51: the distance from the source. -/
noncomputable def drOf (source p : Particle) : ℝ :=
  Real.sqrt ((p.x - source.x) * (p.x - source.x) + (p.y - source.y) * (p.y - source.y)
    + (p.z - source.z) * (p.z - source.z))

/-- `rdot` of `radiation_forces.c` line 56: the radial velocity. -/
noncomputable def rdotOf (source p : Particle) : ℝ :=
  ((p.x - source.x) * (p.vx - source.vx) + (p.y - source.y) * (p.vy - source.vy)
    + (p.z - source.z) * (p.vz - source.vz)) / drOf source p

/-- The acceleration increment of lines 48-63 of `radiation_forces.c` for one
particle `p` with coefficient `beta`: `a_rad*((1.-rdot/c)*d/dr - dv/c)` with
`a_rad = beta*mu/(dr*dr)` and `mu = G*source.m`. -/
noncomputable def contrib (G c : ℝ) (source p : Particle) (beta : ℝ) : Vec3 :=
  let dx := p.x - source.x
  let dy := p.y - source.y
  let dz := p.z - source.z
  let dr := drOf source p
  let dvx := p.vx - source.vx
  let dvy := p.vy - source.vy
  let dvz := p.vz - source.vz
  let rdot := rdotOf source p
  let mu := G * source.m
  let a_rad := beta * mu / (dr * dr)
  ⟨a_rad * (corrFactor c rdot * dx / dr - dvx / c),
   a_rad * (corrFactor c rdot * dy / dr - dvy / c),
   a_rad * (corrFactor c rdot * dz / dr - dvz / c)⟩

/-- Add an acceleration increment onto a particle's accumulated
acceleration fields (the `+=` of lines 61-63). -/
def addAcc (v : Vec3) (p : Particle) : Particle :=
  { p with ax := p.ax + v.x, ay := p.ay + v.y, az := p.az + v.z }

/-- The beta lookup and branch of lines 46-47: a particle with no beta
coefficient contributes zero. -/
noncomputable def contribP (G c : ℝ) (source p : Particle) : Vec3 :=
  match p.beta with
  | none => 0
  | some beta => contrib G c source p beta

/-- One iteration of the loop of lines 41-64 at index `i`: skip the source
index, skip particles with no beta coefficient, otherwise accumulate the
increment onto the particle at `source_index`. -/
noncomputable def loopStep (G c : ℝ) (si : ℕ) (source : Particle)
    (ps : List Particle) (i : ℕ) : List Particle :=
  if i = si then ps
  else
    match ps[i]? with
    | none => ps
    | some p =>
      match p.beta with
      | none => ps
      | some beta =>
        match ps[si]? with
        | none => ps
        | some s => ps.set si (addAcc (contrib G c source p beta) s)

/-- `rebx_radiation_forces` of `radiation_forces.c`: snapshot the source
particle, then loop over the real particles `i < N - N_var`, accumulating
each tagged particle's radiation reaction onto the source's acceleration. -/
noncomputable def rebx_radiation_forces (sim : Simulation) (rad : RadiationParams) :
    Simulation :=
  match sim.particles[rad.source_index]? with
  | none => sim
  | some source =>
    { sim with
      particles :=
        (List.range (sim.particles.length - sim.N_var)).foldl
          (loopStep sim.G rad.c rad.source_index source) sim.particles }

/-- The increment contributed by loop index `i`, read off the particle list
`ps`: zero at the source index, zero for an out-of-range or untagged
particle, else the `contrib` formula. -/
noncomputable def contribOf (G c : ℝ) (si : ℕ) (source : Particle)
    (ps : List Particle) (i : ℕ) : Vec3 :=
  if i = si then 0
  else
    match ps[i]? with
    | none => 0
    | some p => contribP G c source p

/-- The total increment `rebx_radiation_forces` adds to the source
particle's acceleration. -/
noncomputable def increment (sim : Simulation) (rad : RadiationParams) : Vec3 :=
  match sim.particles[rad.source_index]? with
  | none => 0
  | some source =>
    sumV ((List.range (sim.particles.length - sim.N_var)).map
      (contribOf sim.G rad.c rad.source_index source sim.particles))

/-- The per-particle increment exactly as the specification's formula states
it: `a_rad * ((1 - rdot/c) * d/dr - dv/c)` where `d = p.position - source.position`,
`dr = |d|`, `dv = p.velocity - source.velocity`, `rdot = (d . dv) / dr` and
`a_rad = beta * G * source.mass / dr^2`. Stated from the spec's words, to be
compared with `contrib`, which is translated from the C source. -/
noncomputable def specIncrement (G c : ℝ) (source p : Particle) (beta : ℝ) : Vec3 :=
  let dx := p.x - source.x
  let dy := p.y - source.y
  let dz := p.z - source.z
  let dr := Real.sqrt (dx ^ 2 + dy ^ 2 + dz ^ 2)
  let dvx := p.vx - source.vx
  let dvy := p.vy - source.vy
  let dvz := p.vz - source.vz
  let rdot := (dx * dvx + dy * dvy + dz * dvz) / dr
  let a_rad := beta * G * source.m / dr ^ 2
  ⟨a_rad * ((1 - rdot / c) * dx / dr - dvx / c),
   a_rad * ((1 - rdot / c) * dy / dr - dvy / c),
   a_rad * ((1 - rdot / c) * dz / dr - dvz / c)⟩

/-- Two particles that agree on every field except the accumulated
acceleration components. -/
def eqExceptAcc (p q : Particle) : Prop :=
  p.x = q.x ∧ p.y = q.y ∧ p.z = q.z
    ∧ p.vx = q.vx ∧ p.vy = q.vy ∧ p.vz = q.vz
    ∧ p.m = q.m ∧ p.beta = q.beta

/-- A radiation source: unit mass, at rest at the origin, no beta. -/
def srcP : Particle := ⟨0, 0, 0, 0, 0, 0, 1, 0, 0, 0, none⟩

/-- A tagged dust grain at (1,0,0), at rest, with beta = 0.01. -/
def dustP : Particle := ⟨1, 0, 0, 0, 0, 0, 0, 0, 0, 0, some 0.01⟩

/-- An untagged rock at (2,0,0): no beta coefficient. -/
def rockP : Particle := ⟨2, 0, 0, 0, 0, 0, 5, 0, 0, 0, none⟩

/-- The spec's test scenario: G = 1, no variational particles, source then
one dust grain. -/
def simEx : Simulation := ⟨1, 0, [srcP, dustP]⟩

/-- A two-particle simulation whose second particle is variational
(`N_var = 1`, so `N_real = 1`). -/
def simVar : Simulation := ⟨1, 1, [srcP, dustP]⟩

/-- The spec's test parameters: c = 10000, source at index 0. -/
def radEx : RadiationParams := ⟨10000, 0⟩

/-- The source of `simEx` with a nonzero pre-existing acceleration. -/
def srcShift : Particle := ⟨0, 0, 0, 0, 0, 0, 1, 5, 7, 9, none⟩

/-- `simEx` with an acceleration offset already accumulated on the source. -/
def simShift : Simulation := ⟨1, 0, [srcShift, dustP]⟩

/-- A tagged particle receding radially from the origin. -/
def recedingP : Particle := ⟨1, 0, 0, 1, 0, 0, 0, 0, 0, 0, some 0.01⟩

/-- The same particle approaching instead: opposite relative velocity. -/
def approachingP : Particle := ⟨1, 0, 0, -1, 0, 0, 0, 0, 0, 0, some 0.01⟩

/-! ### Basic lemmas about the loop body -/

theorem addAcc_zero (p : Particle) : addAcc 0 p = p := by
  simp [addAcc, Vec3.zero_def]

theorem addAcc_addAcc (v w : Vec3) (p : Particle) :
    addAcc v (addAcc w p) = addAcc (w + v) p := by
  simp [addAcc, Vec3.add_def, add_assoc]

theorem Vec3.zero_add (v : Vec3) : 0 + v = v := by
  cases v
  simp [Vec3.add_def, Vec3.zero_def]

theorem Vec3.add_zero (v : Vec3) : v + 0 = v := by
  cases v
  simp [Vec3.add_def, Vec3.zero_def]

theorem sumV_nil : sumV [] = 0 := rfl

theorem sumV_cons (a : Vec3) (l : List Vec3) : sumV (a :: l) = a + sumV l := rfl

theorem length_loopStep (G c : ℝ) (si : ℕ) (source : Particle)
    (ps : List Particle) (i : ℕ) :
    (loopStep G c si source ps i).length = ps.length := by
  unfold loopStep
  split
  · rfl
  · split
    · rfl
    · split
      · rfl
      · split
        · rfl
        · exact List.length_set ..

theorem getElem?_loopStep_ne (G c : ℝ) (si : ℕ) (source : Particle)
    (ps : List Particle) (i j : ℕ) (hj : j ≠ si) :
    (loopStep G c si source ps i)[j]? = ps[j]? := by
  unfold loopStep
  split
  · rfl
  · split
    · rfl
    · split
      · rfl
      · split
        · rfl
        · exact List.getElem?_set_ne (fun h => hj h.symm)

theorem getElem?_loopStep_si (G c : ℝ) (si : ℕ) (source : Particle)
    (ps : List Particle) (i : ℕ) (s : Particle) (hs : ps[si]? = some s) :
    (loopStep G c si source ps i)[si]?
      = some (addAcc (contribOf G c si source ps i) s) := by
  have hlt : si < ps.length := (List.getElem?_eq_some.mp hs).1
  by_cases hi : i = si
  · simp [loopStep, contribOf, hi, hs, addAcc_zero]
  · cases hp : ps[i]? with
    | none => simp [loopStep, contribOf, hi, hp, hs, addAcc_zero]
    | some p =>
      cases hb : p.beta with
      | none => simp [loopStep, contribOf, contribP, hi, hp, hb, hs, addAcc_zero]
      | some beta =>
        simp [loopStep, contribOf, contribP, hi, hp, hb, hs,
          List.getElem?_set_eq_of_lt _ hlt]

theorem contribOf_loopStep (G c : ℝ) (si : ℕ) (source : Particle)
    (ps : List Particle) (i j : ℕ) :
    contribOf G c si source (loopStep G c si source ps i) j
      = contribOf G c si source ps j := by
  by_cases hj : j = si
  · simp [contribOf, hj]
  · simp [contribOf, hj, getElem?_loopStep_ne G c si source ps i j hj]

/-! ### The fold over the particle indices -/

theorem length_foldl_loopStep (G c : ℝ) (si : ℕ) (source : Particle)
    (L : List ℕ) : ∀ ps : List Particle,
    (L.foldl (loopStep G c si source) ps).length = ps.length := by
  induction L with
  | nil => intro ps; rfl
  | cons i L ih =>
    intro ps
    rw [List.foldl_cons, ih, length_loopStep]

theorem getElem?_foldl_loopStep_ne (G c : ℝ) (si : ℕ) (source : Particle)
    (L : List ℕ) : ∀ (ps : List Particle) (j : ℕ), j ≠ si →
    (L.foldl (loopStep G c si source) ps)[j]? = ps[j]? := by
  induction L with
  | nil => intro ps j _; rfl
  | cons i L ih =>
    intro ps j hj
    rw [List.foldl_cons, ih _ j hj, getElem?_loopStep_ne G c si source ps i j hj]

theorem getElem?_foldl_loopStep_si (G c : ℝ) (si : ℕ) (source : Particle)
    (L : List ℕ) : ∀ (ps : List Particle) (s : Particle), ps[si]? = some s →
    (L.foldl (loopStep G c si source) ps)[si]?
      = some (addAcc (sumV (L.map (contribOf G c si source ps))) s) := by
  induction L with
  | nil =>
    intro ps s hs
    simpa [sumV_nil, addAcc_zero] using hs
  | cons i L ih =>
    intro ps s hs
    have h1 := getElem?_loopStep_si G c si source ps i s hs
    have h2 := ih (loopStep G c si source ps i) _ h1
    rw [List.foldl_cons, h2]
    have hfun : contribOf G c si source (loopStep G c si source ps i)
        = contribOf G c si source ps :=
      funext (contribOf_loopStep G c si source ps i)
    rw [hfun, addAcc_addAcc, List.map_cons, sumV_cons]

/-! ### Behaviour of `rebx_radiation_forces` -/

theorem rebx_G (sim : Simulation) (rad : RadiationParams) :
    (rebx_radiation_forces sim rad).G = sim.G := by
  unfold rebx_radiation_forces
  split <;> rfl

theorem rebx_N_var (sim : Simulation) (rad : RadiationParams) :
    (rebx_radiation_forces sim rad).N_var = sim.N_var := by
  unfold rebx_radiation_forces
  split <;> rfl

theorem rebx_length (sim : Simulation) (rad : RadiationParams) :
    (rebx_radiation_forces sim rad).particles.length = sim.particles.length := by
  unfold rebx_radiation_forces
  split
  · rfl
  · exact length_foldl_loopStep ..

theorem rebx_getElem?_ne (sim : Simulation) (rad : RadiationParams) (j : ℕ)
    (hj : j ≠ rad.source_index) :
    (rebx_radiation_forces sim rad).particles[j]? = sim.particles[j]? := by
  unfold rebx_radiation_forces
  split
  · rfl
  · exact getElem?_foldl_loopStep_ne _ _ _ _ _ _ j hj

theorem rebx_getElem?_si (sim : Simulation) (rad : RadiationParams) (s : Particle)
    (hs : sim.particles[rad.source_index]? = some s) :
    (rebx_radiation_forces sim rad).particles[rad.source_index]?
      = some (addAcc (increment sim rad) s) := by
  simp only [rebx_radiation_forces, increment, hs]
  exact getElem?_foldl_loopStep_si _ _ _ _ _ sim.particles s hs

/-! ### The source formula agrees with the spec's formula -/

theorem contrib_eq_specIncrement (G c : ℝ) (s p : Particle) (beta : ℝ) :
    contrib G c s p beta = specIncrement G c s p beta := by
  have hdr : Real.sqrt ((p.x - s.x) ^ 2 + (p.y - s.y) ^ 2 + (p.z - s.z) ^ 2)
      = drOf s p := by
    unfold drOf
    congr 1
    ring
  simp only [contrib, specIncrement, corrFactor, rdotOf]
  rw [hdr]
  simp only [Vec3.mk.injEq]
  refine ⟨by ring, by ring, by ring⟩

/-! ### Claims -/

/-- C1: for every real particle `i ≠ source_index` whose beta coefficient is
present, `rebx_radiation_forces` adds to the source particle's acceleration
exactly the vector `a_rad * ((1 - rdot/c) * d/dr - dv/c)` with
`a_rad = beta * G * source.mass / dr^2`: the final source particle is the
initial one with the per-index increments summed on, and each qualifying
index's increment is exactly the spec's formula. -/
theorem C1_exact_increment (sim : Simulation) (rad : RadiationParams)
    (s : Particle) (hs : sim.particles[rad.source_index]? = some s) :
    (rebx_radiation_forces sim rad).particles[rad.source_index]?
      = some (addAcc (increment sim rad) s)
    ∧ ∀ (i : ℕ) (p : Particle) (beta : ℝ), i ≠ rad.source_index →
        sim.particles[i]? = some p → p.beta = some beta →
        contribOf sim.G rad.c rad.source_index s sim.particles i
          = specIncrement sim.G rad.c s p beta := by
  constructor
  · exact rebx_getElem?_si sim rad s hs
  · intro i p beta hi hp hb
    simp only [contribOf, if_neg hi, hp, contribP, hb]
    exact contrib_eq_specIncrement ..

/-- Witness for C1 at the concrete two-particle scenario. -/
theorem C1_exact_increment_witness :
    simEx.particles[radEx.source_index]? = some srcP
    ∧ ((rebx_radiation_forces simEx radEx).particles[radEx.source_index]?
        = some (addAcc (increment simEx radEx) srcP)
      ∧ ∀ (i : ℕ) (p : Particle) (beta : ℝ), i ≠ radEx.source_index →
          simEx.particles[i]? = some p → p.beta = some beta →
          contribOf simEx.G radEx.c radEx.source_index srcP simEx.particles i
            = specIncrement simEx.G radEx.c srcP p beta) :=
  ⟨rfl, C1_exact_increment simEx radEx srcP rfl⟩

/-- C2: a particle whose beta coefficient is absent is an exact no-op: the
loop iteration returns the particle list unchanged and the particle's
increment is zero. -/
theorem C2_missing_beta_noop (G c : ℝ) (si : ℕ) (source : Particle)
    (ps : List Particle) (i : ℕ) (p : Particle)
    (hp : ps[i]? = some p) (hb : p.beta = none) :
    loopStep G c si source ps i = ps
    ∧ contribOf G c si source ps i = 0 := by
  by_cases hi : i = si
  · simp [loopStep, contribOf, hi]
  · simp [loopStep, contribOf, contribP, hi, hp, hb]

/-- Witness for C2: the untagged rock at index 1 is an exact no-op. -/
theorem C2_missing_beta_noop_witness :
    ([srcP, rockP] : List Particle)[1]? = some rockP
    ∧ rockP.beta = none
    ∧ (loopStep 1 10000 0 srcP [srcP, rockP] 1 = [srcP, rockP]
      ∧ contribOf 1 10000 0 srcP [srcP, rockP] 1 = 0) :=
  ⟨rfl, rfl, C2_missing_beta_noop 1 10000 0 srcP [srcP, rockP] 1 rockP rfl rfl⟩

/-- C3: `rebx_radiation_forces` mutates only the acceleration components of
the particle at `source_index`: the simulation's `G`, `N_var` and particle
count are unchanged, every other particle is unchanged, and the source
particle keeps its position, velocity, mass and beta coefficient. -/
theorem C3_frame (sim : Simulation) (rad : RadiationParams) :
    (rebx_radiation_forces sim rad).G = sim.G
    ∧ (rebx_radiation_forces sim rad).N_var = sim.N_var
    ∧ (rebx_radiation_forces sim rad).particles.length = sim.particles.length
    ∧ (∀ j : ℕ, j ≠ rad.source_index →
        (rebx_radiation_forces sim rad).particles[j]? = sim.particles[j]?)
    ∧ ∀ s : Particle, sim.particles[rad.source_index]? = some s →
        ∃ s' : Particle,
          (rebx_radiation_forces sim rad).particles[rad.source_index]? = some s'
          ∧ s'.x = s.x ∧ s'.y = s.y ∧ s'.z = s.z
          ∧ s'.vx = s.vx ∧ s'.vy = s.vy ∧ s'.vz = s.vz
          ∧ s'.m = s.m ∧ s'.beta = s.beta := by
  refine ⟨rebx_G sim rad, rebx_N_var sim rad, rebx_length sim rad,
    fun j hj => rebx_getElem?_ne sim rad j hj, fun s hs => ?_⟩
  exact ⟨addAcc (increment sim rad) s, rebx_getElem?_si sim rad s hs,
    rfl, rfl, rfl, rfl, rfl, rfl, rfl, rfl⟩

/-- Witness for C3 at the concrete two-particle scenario. -/
theorem C3_frame_witness :
    (rebx_radiation_forces simEx radEx).particles[1]? = simEx.particles[1]?
    ∧ ∃ s' : Particle,
        (rebx_radiation_forces simEx radEx).particles[radEx.source_index]? = some s'
        ∧ s'.x = srcP.x ∧ s'.y = srcP.y ∧ s'.z = srcP.z
        ∧ s'.vx = srcP.vx ∧ s'.vy = srcP.vy ∧ s'.vz = srcP.vz
        ∧ s'.m = srcP.m ∧ s'.beta = srcP.beta :=
  ⟨(C3_frame simEx radEx).2.2.2.1 1 (by decide),
   (C3_frame simEx radEx).2.2.2.2 srcP rfl⟩

/-- C4: the particle at `source_index` is skipped entirely by the loop,
whatever its beta coefficient: the iteration at the source index is the
identity and the source index's increment is zero. -/
theorem C4_source_skipped (G c : ℝ) (si : ℕ) (source : Particle)
    (ps : List Particle) :
    loopStep G c si source ps si = ps ∧ contribOf G c si source ps si = 0 := by
  constructor
  · simp [loopStep]
  · simp [contribOf]

/-- C5: only indices `i < N - N_var` are processed: replacing a variational
particle (index at or beyond `N_real`, other than the source) by anything at
all, tagged or not, leaves the source particle's final state unchanged. -/
theorem C5_variational_excluded (sim : Simulation) (rad : RadiationParams)
    (k : ℕ) (q : Particle)
    (hk : sim.particles.length - sim.N_var ≤ k) (hks : k ≠ rad.source_index) :
    (rebx_radiation_forces { sim with particles := sim.particles.set k q }
        rad).particles[rad.source_index]?
      = (rebx_radiation_forces sim rad).particles[rad.source_index]? := by
  have hset : (sim.particles.set k q)[rad.source_index]?
      = sim.particles[rad.source_index]? := List.getElem?_set_ne hks
  have hinc : increment { sim with particles := sim.particles.set k q } rad
      = increment sim rad := by
    simp only [increment, hset, List.length_set]
    cases hsrc : sim.particles[rad.source_index]? with
    | none => rfl
    | some s =>
      refine congrArg sumV (List.map_congr_left ?_)
      intro i hi
      have hik : i ≠ k := by
        have := List.mem_range.mp hi
        omega
      by_cases hisi : i = rad.source_index
      · simp [contribOf, hisi]
      · simp [contribOf, hisi, List.getElem?_set_ne hik.symm]
  cases hsrc : sim.particles[rad.source_index]? with
  | none =>
    have h1 : ({ sim with particles := sim.particles.set k q } :
        Simulation).particles[rad.source_index]? = none := by
      simpa [hset] using hsrc
    simp [rebx_radiation_forces, hsrc, h1]
  | some s =>
    have h1 : ({ sim with particles := sim.particles.set k q } :
        Simulation).particles[rad.source_index]? = some s := by
      simpa [hset] using hsrc
    rw [rebx_getElem?_si _ rad s h1, rebx_getElem?_si sim rad s hsrc, hinc]

/-- Witness for C5: overwriting the variational particle of `simVar` with a
tagged particle does not change the source's result. -/
theorem C5_variational_excluded_witness :
    simVar.particles.length - simVar.N_var ≤ 1
    ∧ (1 : ℕ) ≠ radEx.source_index
    ∧ (rebx_radiation_forces { simVar with particles := simVar.particles.set 1 dustP }
          radEx).particles[radEx.source_index]?
        = (rebx_radiation_forces simVar radEx).particles[radEx.source_index]? :=
  ⟨by decide, by decide,
   C5_variational_excluded simVar radEx 1 dustP (by decide) (by decide)⟩

theorem drOf_srcP_dustP : drOf srcP dustP = 1 := by
  have h : ((dustP.x - srcP.x) * (dustP.x - srcP.x)
      + (dustP.y - srcP.y) * (dustP.y - srcP.y)
      + (dustP.z - srcP.z) * (dustP.z - srcP.z)) = 1 := by
    norm_num [srcP, dustP]
  rw [drOf, h, Real.sqrt_one]

theorem contrib_srcP_dustP : contrib 1 10000 srcP dustP 0.01 = ⟨0.01, 0, 0⟩ := by
  simp only [contrib, corrFactor, rdotOf, drOf_srcP_dustP, Vec3.mk.injEq]
  norm_num [srcP, dustP]

theorem simEx_increment : increment simEx radEx = ⟨0.01, 0, 0⟩ := by
  have hr : List.range 2 = [0, 1] := rfl
  have hbeta : contribP 1 10000 srcP dustP = contrib 1 10000 srcP dustP 0.01 := rfl
  simp only [increment, simEx, radEx, List.getElem?_cons_zero, List.length_cons,
    List.length_nil, Nat.sub_zero, hr, List.map_cons, List.map_nil, contribOf,
    List.getElem?_cons_succ, sumV_cons, sumV_nil, if_true, reduceIte, hbeta,
    contrib_srcP_dustP, Vec3.zero_add, Vec3.add_zero]
  norm_num

/-- C7: for a tagged particle at rest relative to the source the added
acceleration is `beta*G*M/dr^2 * (d/dr)`, purely radial; and in the spec's
concrete scenario (source of mass 1 at rest at the origin, G = 1, c = 10000,
one tagged particle at (1,0,0) at rest with beta = 0.01) the final source
particle has acceleration exactly (0.01, 0, 0). -/
theorem C7_rest_radial (G c : ℝ) (s p : Particle) (beta : ℝ)
    (hvx : p.vx = s.vx) (hvy : p.vy = s.vy) (hvz : p.vz = s.vz) :
    contrib G c s p beta
      = ⟨beta * G * s.m / drOf s p ^ 2 * ((p.x - s.x) / drOf s p),
         beta * G * s.m / drOf s p ^ 2 * ((p.y - s.y) / drOf s p),
         beta * G * s.m / drOf s p ^ 2 * ((p.z - s.z) / drOf s p)⟩
    ∧ (rebx_radiation_forces simEx radEx).particles[radEx.source_index]?
        = some ⟨0, 0, 0, 0, 0, 0, 1, 0.01, 0, 0, none⟩ := by
  constructor
  · simp only [contrib, corrFactor, rdotOf, hvx, hvy, hvz, Vec3.mk.injEq]
    refine ⟨by ring, by ring, by ring⟩
  · have h := rebx_getElem?_si simEx radEx srcP rfl
    rw [simEx_increment] at h
    have ha : addAcc ⟨0.01, 0, 0⟩ srcP = ⟨0, 0, 0, 0, 0, 0, 1, 0.01, 0, 0, none⟩ := by
      simp only [addAcc, srcP]
      norm_num
    rw [ha] at h
    exact h

/-- Witness for C7: the dust grain of the concrete scenario is at rest
relative to the source. -/
theorem C7_rest_radial_witness :
    dustP.vx = srcP.vx ∧ dustP.vy = srcP.vy ∧ dustP.vz = srcP.vz
    ∧ (contrib 1 10000 srcP dustP 0.01
        = ⟨0.01 * 1 * srcP.m / drOf srcP dustP ^ 2 * ((dustP.x - srcP.x) / drOf srcP dustP),
           0.01 * 1 * srcP.m / drOf srcP dustP ^ 2 * ((dustP.y - srcP.y) / drOf srcP dustP),
           0.01 * 1 * srcP.m / drOf srcP dustP ^ 2 * ((dustP.z - srcP.z) / drOf srcP dustP)⟩
      ∧ (rebx_radiation_forces simEx radEx).particles[radEx.source_index]?
          = some ⟨0, 0, 0, 0, 0, 0, 1, 0.01, 0, 0, none⟩) :=
  ⟨rfl, rfl, rfl, C7_rest_radial 1 10000 srcP dustP 0.01 rfl rfl rfl⟩

theorem contrib_addAcc_source (G c : ℝ) (v : Vec3) (s p : Particle) (beta : ℝ) :
    contrib G c (addAcc v s) p beta = contrib G c s p beta := rfl

theorem contribP_addAcc_source (G c : ℝ) (v : Vec3) (s p : Particle) :
    contribP G c (addAcc v s) p = contribP G c s p := by
  cases hb : p.beta <;> simp [contribP, hb, contrib_addAcc_source]

theorem increment_pair (G c : ℝ) (a b : Particle) :
    increment ⟨G, 0, [a, b]⟩ ⟨c, 0⟩ = 0 + (contribP G c a b + 0) := by
  have hr : List.range 2 = [0, 1] := rfl
  simp only [increment, List.getElem?_cons_zero, List.length_cons, List.length_nil,
    Nat.sub_zero, hr, List.map_cons, List.map_nil, contribOf,
    List.getElem?_cons_succ, sumV_cons, sumV_nil]
  norm_num

theorem increment_triple (G c : ℝ) (a b d : Particle) :
    increment ⟨G, 0, [a, b, d]⟩ ⟨c, 0⟩
      = 0 + (contribP G c a b + (contribP G c a d + 0)) := by
  have hr : List.range 3 = [0, 1, 2] := rfl
  simp only [increment, List.getElem?_cons_zero, List.length_cons, List.length_nil,
    Nat.sub_zero, hr, List.map_cons, List.map_nil, contribOf,
    List.getElem?_cons_succ, sumV_cons, sumV_nil]
  norm_num

/-- C8: accumulation is additive and order-independent: with the source at
index 0, applying the kernel once to `{A, B}` gives the same final source
particle as applying it to `{A}` and then, from the resulting source state,
to `{B}`. -/
theorem C8_additive (G c : ℝ) (s A B : Particle) :
    (rebx_radiation_forces ⟨G, 0, [s, A, B]⟩ ⟨c, 0⟩).particles[(0 : ℕ)]?
      = (rebx_radiation_forces
          ⟨G, 0, [(rebx_radiation_forces ⟨G, 0, [s, A]⟩ ⟨c, 0⟩).particles.getD 0 default,
            B]⟩ ⟨c, 0⟩).particles[(0 : ℕ)]? := by
  have hAB := rebx_getElem?_si ⟨G, 0, [s, A, B]⟩ ⟨c, 0⟩ s rfl
  have hA := rebx_getElem?_si ⟨G, 0, [s, A]⟩ ⟨c, 0⟩ s rfl
  dsimp only [] at hAB hA
  have hgetD : (rebx_radiation_forces ⟨G, 0, [s, A]⟩ ⟨c, 0⟩).particles.getD 0 default
      = addAcc (increment ⟨G, 0, [s, A]⟩ ⟨c, 0⟩) s := by
    rw [List.getD_eq_getElem?_getD, hA]
    rfl
  have hB := rebx_getElem?_si
      ⟨G, 0, [addAcc (increment ⟨G, 0, [s, A]⟩ ⟨c, 0⟩) s, B]⟩ ⟨c, 0⟩
      (addAcc (increment ⟨G, 0, [s, A]⟩ ⟨c, 0⟩) s) rfl
  dsimp only [] at hB
  rw [hgetD, hAB, hB]
  simp only [increment_triple, increment_pair, contribP_addAcc_source,
    addAcc_addAcc, Vec3.zero_add, Vec3.add_zero]

/-- C9: flipping the sign of the relative velocity (same positions) flips
the sign of `rdot`, and the correction factor `(1 - rdot/c)` deviates from 1
by amounts equal in magnitude and opposite in sign for the two cases. -/
theorem C9_rdot_sign_symmetric (c : ℝ) (s p p' : Particle)
    (hx : p'.x = p.x) (hy : p'.y = p.y) (hz : p'.z = p.z)
    (hvx : p'.vx - s.vx = -(p.vx - s.vx))
    (hvy : p'.vy - s.vy = -(p.vy - s.vy))
    (hvz : p'.vz - s.vz = -(p.vz - s.vz)) :
    rdotOf s p' = -(rdotOf s p)
    ∧ corrFactor c (rdotOf s p') - 1 = -(corrFactor c (rdotOf s p) - 1) := by
  have hdr : drOf s p' = drOf s p := by
    simp only [drOf, hx, hy, hz]
  have h1 : rdotOf s p' = -(rdotOf s p) := by
    simp only [rdotOf, hx, hy, hz, hdr, hvx, hvy, hvz]
    ring
  refine ⟨h1, ?_⟩
  rw [h1]
  simp only [corrFactor]
  ring

/-- Witness for C9: an approaching and a receding particle at (1,0,0). -/
theorem C9_rdot_sign_symmetric_witness :
    approachingP.x = recedingP.x ∧ approachingP.y = recedingP.y
    ∧ approachingP.z = recedingP.z
    ∧ approachingP.vx - srcP.vx = -(recedingP.vx - srcP.vx)
    ∧ approachingP.vy - srcP.vy = -(recedingP.vy - srcP.vy)
    ∧ approachingP.vz - srcP.vz = -(recedingP.vz - srcP.vz)
    ∧ (rdotOf srcP approachingP = -(rdotOf srcP recedingP)
      ∧ corrFactor 10000 (rdotOf srcP approachingP) - 1
          = -(corrFactor 10000 (rdotOf srcP recedingP) - 1)) :=
  ⟨rfl, rfl, rfl, by norm_num [approachingP, recedingP, srcP],
   by norm_num [approachingP, recedingP, srcP],
   by norm_num [approachingP, recedingP, srcP],
   C9_rdot_sign_symmetric 10000 srcP recedingP approachingP rfl rfl rfl
     (by norm_num [approachingP, recedingP, srcP])
     (by norm_num [approachingP, recedingP, srcP])
     (by norm_num [approachingP, recedingP, srcP])⟩

theorem contrib_congr (G c : ℝ) (s s' p p' : Particle)
    (hs : eqExceptAcc s' s) (hp : eqExceptAcc p' p) (beta : ℝ) :
    contrib G c s' p' beta = contrib G c s p beta := by
  obtain ⟨hs1, hs2, hs3, hs4, hs5, hs6, hs7, _⟩ := hs
  obtain ⟨hp1, hp2, hp3, hp4, hp5, hp6, hp7, _⟩ := hp
  simp only [contrib, corrFactor, rdotOf, drOf, hs1, hs2, hs3, hs4, hs5, hs6, hs7,
    hp1, hp2, hp3, hp4, hp5, hp6, hp7]

theorem contribP_congr (G c : ℝ) (s s' p p' : Particle)
    (hs : eqExceptAcc s' s) (hp : eqExceptAcc p' p) :
    contribP G c s' p' = contribP G c s p := by
  have hb : p'.beta = p.beta := hp.2.2.2.2.2.2.2
  cases hbb : p.beta with
  | none => simp [contribP, hb, hbb]
  | some beta => simp [contribP, hb, hbb, contrib_congr G c s s' p p' hs hp beta]

/-- C10: the increment is independent of every particle's pre-existing
acceleration: for a second simulation equal except in acceleration fields,
the kernel adds exactly the same increment, so any initial acceleration
offset survives to the output unchanged. -/
theorem C10_independent_of_initial_acc (sim sim' : Simulation)
    (rad : RadiationParams)
    (hG : sim'.G = sim.G) (hNv : sim'.N_var = sim.N_var)
    (hlen : sim'.particles.length = sim.particles.length)
    (hrel : ∀ (j : ℕ) (p p' : Particle), sim.particles[j]? = some p →
        sim'.particles[j]? = some p' → eqExceptAcc p' p) :
    increment sim' rad = increment sim rad
    ∧ ∀ s' : Particle, sim'.particles[rad.source_index]? = some s' →
        (rebx_radiation_forces sim' rad).particles[rad.source_index]?
          = some (addAcc (increment sim rad) s') := by
  have hinc : increment sim' rad = increment sim rad := by
    unfold increment
    cases hsrc : sim.particles[rad.source_index]? with
    | none =>
      have h0 : sim'.particles[rad.source_index]? = none := by
        apply List.getElem?_eq_none
        rw [hlen]
        exact List.getElem?_eq_none_iff.mp hsrc
      rw [h0]
    | some s =>
      cases hs' : sim'.particles[rad.source_index]? with
      | none =>
        exfalso
        have h1 : rad.source_index < sim.particles.length :=
          (List.getElem?_eq_some.mp hsrc).1
        have h2 : sim'.particles.length ≤ rad.source_index :=
          List.getElem?_eq_none_iff.mp hs'
        omega
      | some s' =>
        rw [hG, hNv, hlen]
        refine congrArg sumV (List.map_congr_left ?_)
        intro i hi
        by_cases hisi : i = rad.source_index
        · simp [contribOf, hisi]
        · have hss : eqExceptAcc s' s := hrel _ _ _ hsrc hs'
          cases hp : sim.particles[i]? with
          | none =>
            have hp' : sim'.particles[i]? = none := by
              apply List.getElem?_eq_none
              rw [hlen]
              exact List.getElem?_eq_none_iff.mp hp
            simp [contribOf, hisi, hp, hp']
          | some p =>
            cases hp' : sim'.particles[i]? with
            | none =>
              exfalso
              have h1 : i < sim.particles.length := (List.getElem?_eq_some.mp hp).1
              have h2 : sim'.particles.length ≤ i :=
                List.getElem?_eq_none_iff.mp hp'
              omega
            | some p' =>
              have hpp : eqExceptAcc p' p := hrel _ _ _ hp hp'
              simp [contribOf, hisi, hp, hp',
                contribP_congr sim.G rad.c s s' p p' hss hpp]
  refine ⟨hinc, fun s' hs' => ?_⟩
  rw [rebx_getElem?_si sim' rad s' hs', hinc]

/-- Witness for C10: shifting the source's initial acceleration in `simEx`
leaves the added increment unchanged. -/
theorem C10_independent_of_initial_acc_witness :
    simShift.G = simEx.G ∧ simShift.N_var = simEx.N_var
    ∧ simShift.particles.length = simEx.particles.length
    ∧ (∀ (j : ℕ) (p p' : Particle), simEx.particles[j]? = some p →
        simShift.particles[j]? = some p' → eqExceptAcc p' p)
    ∧ (increment simShift radEx = increment simEx radEx
      ∧ ∀ s' : Particle, simShift.particles[radEx.source_index]? = some s' →
          (rebx_radiation_forces simShift radEx).particles[radEx.source_index]?
            = some (addAcc (increment simEx radEx) s')) := by
  have hrel : ∀ (j : ℕ) (p p' : Particle), simEx.particles[j]? = some p →
      simShift.particles[j]? = some p' → eqExceptAcc p' p := by
    intro j p p' h1 h2
    match j with
    | 0 =>
      simp only [simEx, simShift, List.getElem?_cons_zero, Option.some.injEq] at h1 h2
      subst h1
      subst h2
      exact ⟨rfl, rfl, rfl, rfl, rfl, rfl, rfl, rfl⟩
    | 1 =>
      simp only [simEx, simShift, List.getElem?_cons_succ, List.getElem?_cons_zero,
        Option.some.injEq] at h1 h2
      subst h1
      subst h2
      exact ⟨rfl, rfl, rfl, rfl, rfl, rfl, rfl, rfl⟩
    | j + 2 =>
      simp [simEx] at h1
  exact ⟨rfl, rfl, rfl, hrel,
    C10_independent_of_initial_acc simEx simShift radEx rfl rfl rfl hrel⟩

end RadiationForces
